import Mathlib

/-!
# Keysmith: shallow embedding of the key-management engine

This file embeds, in Lean, the core of the `xraph/keysmith` Go repository:
the in-memory store (`store/memory/store.go`), the engine's key lifecycle
operations (`keysmith.Engine` in the root package), and the plug-in hook
manager (`plugin/manager.go`), together with theorems settling the frozen
claims about them.

Modelling conventions:
* `time.Time` is modelled as `Int` (`t.After(u)` in Go is `u < t`,
  `t.Before(u)` is `t < u`); `time.Duration` is also `Int`.
* Go maps (`map[string]*T`) are association lists with overwrite-on-insert
  semantics; `map[string]bool` sets are duplicate-free `List String`.
* Each occurrence of `time.Now()` inside an operation is an explicit
  parameter; nondeterministic inputs (generated raw keys, fresh TypeIDs)
  are explicit parameters as well.
* The `Hasher` interface is a function parameter of the engine (the
  reference SHA-256 hasher is deterministic and never fails, so `Hash`
  is total); the `RateLimiter` interface is an optional allow-predicate.
* The asynchronous `last_used_at` update in `ValidateKey` runs in a
  detached goroutine in Go and is not part of the synchronous state
  transition, so it is not part of the returned store.
* Opaque payloads never inspected by the code under study
  (`Metadata map[string]any`) are omitted from the records.
-/

namespace Keysmith

/-- Go `time.Time`, as an integer timestamp. -/
abbrev Time := Int

/-- Go `time.Duration`. -/
abbrev Duration := Int

/-- `key.State` from `key/key.go`. -/
inductive KState where
  | active
  | rotated
  | expired
  | revoked
  | suspended
deriving DecidableEq, Repr

/-- `key.Key` from `key/key.go` (the `Metadata` payload, never inspected by
the engine or the store logic, is omitted). The Go field `Prefix` is named
`pfx` here. -/
structure Key where
  id : String
  tenantID : String
  appID : String
  name : String
  description : String
  pfx : String
  hint : String
  keyHash : String
  environment : String
  state : KState
  policyID : Option String
  scopes : List String
  createdBy : String
  expiresAt : Option Time
  lastUsedAt : Option Time
  rotatedAt : Option Time
  revokedAt : Option Time
  createdAt : Time
  updatedAt : Time
deriving DecidableEq, Repr

/-- `policy.Policy` from `policy/policy.go` (allowlists and the metadata
payload, never read on the engine paths under study, are carried as plain
lists / omitted). -/
structure Policy where
  id : String
  tenantID : String
  appID : String
  name : String
  description : String
  rateLimit : Int
  rateLimitWindow : Duration
  burstLimit : Int
  allowedScopes : List String
  allowedIPs : List String
  allowedOrigins : List String
  allowedMethods : List String
  allowedPaths : List String
  maxKeyLifetime : Duration
  rotationPeriod : Duration
  gracePeriod : Duration
  dailyQuota : Int
  monthlyQuota : Int
  createdAt : Time
  updatedAt : Time
deriving DecidableEq, Repr

/-- `rotation.Record` from `rotation/rotation.go`. -/
structure RotationRecord where
  id : String
  keyID : String
  tenantID : String
  oldKeyHash : String
  newKeyHash : String
  reason : String
  graceTTL : Duration
  graceEnds : Time
  rotatedBy : String
  createdAt : Time
deriving DecidableEq, Repr

/-- `scope.Scope` from `scope/scope.go`. -/
structure Scope where
  id : String
  tenantID : String
  appID : String
  name : String
  description : String
  parent : String
  createdAt : Time
deriving DecidableEq, Repr

/-! ## Association lists (Go maps keyed by `.String()` of an ID) -/

/-- A Go `map[string]α`, as an association list kept duplicate-free by
construction. -/
abbrev AList (α : Type) := List (String × α)

/-- Map lookup. -/
def alookup {α : Type} : AList α → String → Option α
  | [], _ => none
  | (k, v) :: rest, q => if k = q then some v else alookup rest q

/-- Map assignment `m[k] = v` (overwrites an existing entry). -/
def ainsert {α : Type} : AList α → String → α → AList α
  | [], k, v => [(k, v)]
  | (k', v') :: rest, k, v =>
      if k' = k then (k, v) :: rest else (k', v') :: ainsert rest k v

/-- Map deletion `delete(m, k)`. -/
def aerase {α : Type} : AList α → String → AList α
  | [], _ => []
  | (k', v') :: rest, k => if k' = k then rest else (k', v') :: aerase rest k

theorem alookup_ainsert_self {α : Type} (m : AList α) (k : String) (v : α) :
    alookup (ainsert m k v) k = some v := by
  induction m with
  | nil => simp [ainsert, alookup]
  | cons hd tl ih =>
      by_cases h : hd.1 = k
      · simp [ainsert, alookup, h]
      · simp [ainsert, alookup, h, ih]

theorem alookup_ainsert_ne {α : Type} (m : AList α) (k q : String) (v : α)
    (h : k ≠ q) : alookup (ainsert m k v) q = alookup m q := by
  induction m with
  | nil => simp [ainsert, alookup, h]
  | cons hd tl ih =>
      by_cases h' : hd.1 = k
      · simp [ainsert, alookup, h', h]
      · by_cases h'' : hd.1 = q
        · simp [ainsert, alookup, h', h'', Ne.symm h]
        · simp [ainsert, alookup, h', h'', ih]

theorem ainsert_length_of_alookup_none {α : Type} (m : AList α) (k : String)
    (v : α) (h : alookup m k = none) :
    (ainsert m k v).length = m.length + 1 := by
  induction m with
  | nil => simp [ainsert]
  | cons hd tl ih =>
      by_cases h' : hd.1 = k
      · simp [alookup, h'] at h
      · simp [alookup, h'] at h
        simp [ainsert, h', ih h]

/-! ## Store errors and the in-memory store (`store/memory/store.go`) -/

/-- The only error class the memory store produces (`notFoundError`). -/
inductive StoreErr where
  | notFound (entity : String)
deriving DecidableEq, Repr

/-- `memory.Store`: the six collections of the in-memory backend. -/
structure MemStore where
  keys : AList Key
  hashIndex : AList String
  policies : AList Policy
  rotations : AList RotationRecord
  scopes : AList Scope
  keyScopes : AList (List String)
deriving DecidableEq, Repr

/-- `memory.New()`. -/
def emptyStore : MemStore :=
  { keys := [], hashIndex := [], policies := [], rotations := [],
    scopes := [], keyScopes := [] }

/-- `keyStore.Create`: stores the row under `k.ID.String()` and points the
hash index at it. Note: it never fails, and it overwrites the hash-index
entry even when another key already carries the same hash. -/
def keysCreate (st : MemStore) (k : Key) : MemStore × Except StoreErr Unit :=
  ({ st with
      keys := ainsert st.keys k.id k,
      hashIndex := ainsert st.hashIndex k.keyHash k.id }, .ok ())

/-- `keyStore.Get`. -/
def keysGet (st : MemStore) (kid : String) : Except StoreErr Key :=
  match alookup st.keys kid with
  | none => .error (.notFound "key")
  | some k => .ok k

/-- `keyStore.GetByHash`: hash → key id → row. -/
def keysGetByHash (st : MemStore) (hash : String) : Except StoreErr Key :=
  match alookup st.hashIndex hash with
  | none => .error (.notFound "key")
  | some kid =>
      match alookup st.keys kid with
      | none => .error (.notFound "key")
      | some k => .ok k

/-- `keyStore.Update`: full-row replace; re-points the hash index when the
hash changed. -/
def keysUpdate (st : MemStore) (k : Key) : MemStore × Except StoreErr Unit :=
  match alookup st.keys k.id with
  | none => (st, .error (.notFound "key"))
  | some old =>
      let hi :=
        if old.keyHash = k.keyHash then st.hashIndex
        else ainsert (aerase st.hashIndex old.keyHash) k.keyHash k.id
      ({ st with keys := ainsert st.keys k.id k, hashIndex := hi }, .ok ())

/-- `keyStore.UpdateState` (sets `UpdatedAt = time.Now()`). -/
def keysUpdateState (st : MemStore) (kid : String) (s : KState) (now : Time) :
    MemStore × Except StoreErr Unit :=
  match alookup st.keys kid with
  | none => (st, .error (.notFound "key"))
  | some k =>
      ({ st with keys := ainsert st.keys kid { k with state := s, updatedAt := now } },
       .ok ())

/-- `keyStore.ListByPolicy`: every key whose `PolicyID` matches, with no
state filter. -/
def keysListByPolicy (st : MemStore) (pid : String) : List Key :=
  (st.keys.filter (fun kv => kv.2.policyID = some pid)).map (·.2)

/-- `policyStore.Get`. -/
def policiesGet (st : MemStore) (pid : String) : Except StoreErr Policy :=
  match alookup st.policies pid with
  | none => .error (.notFound "policy")
  | some p => .ok p

/-- `policyStore.Delete`. -/
def policiesDelete (st : MemStore) (pid : String) :
    MemStore × Except StoreErr Unit :=
  match alookup st.policies pid with
  | none => (st, .error (.notFound "policy"))
  | some _ => ({ st with policies := aerase st.policies pid }, .ok ())

/-- `rotationStore.Create`. -/
def rotationsCreate (st : MemStore) (r : RotationRecord) :
    MemStore × Except StoreErr Unit :=
  ({ st with rotations := ainsert st.rotations r.id r }, .ok ())

/-- `rotationStore.ListPendingGrace`: records with `r.GraceEnds.After(now)`,
i.e. whose grace window has NOT yet ended. -/
def rotationsListPendingGrace (st : MemStore) (now : Time) :
    List RotationRecord :=
  (st.rotations.filter (fun kv => now < kv.2.graceEnds)).map (·.2)

/-- `rotationStore.LatestForKey`: scans all records for the key, keeping the
one with the strictly latest `CreatedAt`. -/
def rotationsLatestForKey (st : MemStore) (kid : String) :
    Except StoreErr RotationRecord :=
  let latest := st.rotations.foldl
    (fun acc kv =>
      if kv.2.keyID = kid then
        match acc with
        | none => some kv.2
        | some l => if l.createdAt < kv.2.createdAt then some kv.2 else some l
      else acc) none
  match latest with
  | none => .error (.notFound "rotation")
  | some r => .ok r

/-- `scopeStore.AssignToKey`: records the names in the junction set for the
key. Note: the names are NOT resolved against the scope collection and the
key's tenant is never consulted; the call cannot fail. -/
def scopesAssignToKey (st : MemStore) (kid : String) (names : List String) :
    MemStore × Except StoreErr Unit :=
  let cur := (alookup st.keyScopes kid).getD []
  let updated := names.foldl (fun acc n => if n ∈ acc then acc else acc ++ [n]) cur
  ({ st with keyScopes := ainsert st.keyScopes kid updated }, .ok ())

/-- `scopeStore.ListByKey`: scopes (from any tenant) whose name is in the
key's junction set. -/
def scopesListByKey (st : MemStore) (kid : String) : List Scope :=
  let names := (alookup st.keyScopes kid).getD []
  (st.scopes.filter (fun kv => kv.2.name ∈ names)).map (·.2)

/-! ## Plug-ins and the hook manager (`plugin/manager.go`) -/

/-- A plug-in: a name plus, for the hook kind exercised by the claims, an
optional handler (`some` iff the plug-in implements `plugin.KeyCreated`,
Go's runtime type query `p.(KeyCreated)`). A handler result `some msg`
models a non-nil error. The other thirteen `Fire*` dispatchers of
`plugin/manager.go` follow literally the same loop. -/
structure Plugin where
  name : String
  onKeyCreated : Option (Key → Option String)

/-- `Manager.FireKeyCreated`: iterate plug-ins in registration order, call
each implementing handler, halt at the first error and return it. Also
returns, for observation, the names of the plug-ins whose handler ran. -/
def fireKeyCreated : List Plugin → Key → List String × Option String
  | [], _ => ([], none)
  | p :: ps, k =>
      match p.onKeyCreated with
      | none => fireKeyCreated ps k
      | some h =>
          match h k with
          | some e => ([p.name], some e)
          | none =>
              let rest := fireKeyCreated ps k
              (p.name :: rest.1, rest.2)

/-! ## Engine errors, hook-event trace, and the engine itself (`keysmith.go`) -/

/-- The sentinel errors of `errors.go` reachable on the embedded paths, plus
wrapped store errors (`fmt.Errorf("...: %w", err)`). -/
inductive KeysmithErr where
  | invalidKey
  | keyInactive
  | keyExpired
  | keyRevoked
  | rateLimited
  | invalidStateTransition
  | policyInUse
  | wrapped (ctx : String) (inner : StoreErr)
deriving DecidableEq, Repr

/-- A lifecycle hook fired by the engine (the engine discards the dispatch
result: `_ = e.hooks.Fire...`). -/
inductive HookEvent where
  | keyCreated (kid : String)
  | keyCreateFailed (kid : String)
  | keyValidated (kid : String)
  | keyValidationFailed (raw : String)
  | keyExpired (kid : String)
  | keyRotated (kid : String)
  | keyRevoked (kid : String)
  | keySuspended (kid : String)
  | keyReactivated (kid : String)
  | keyRateLimited (kid : String)
  | policyDeleted (pid : String)
deriving DecidableEq, Repr

instance {ε α : Type} [DecidableEq ε] [DecidableEq α] :
    DecidableEq (Except ε α) := fun a b =>
  match a, b with
  | .ok x, .ok y =>
      if h : x = y then .isTrue (by rw [h])
      else .isFalse (by intro hc; cases hc; exact h rfl)
  | .ok _, .error _ => .isFalse (by intro hc; cases hc)
  | .error _, .ok _ => .isFalse (by intro hc; cases hc)
  | .error x, .error y =>
      if h : x = y then .isTrue (by rw [h])
      else .isFalse (by intro hc; cases hc; exact h rfl)

/-- Result of one engine operation: the store afterwards, the hooks the
engine fired (in order), and the returned value or error. -/
structure Out (α : Type) where
  store : MemStore
  events : List HookEvent
  res : Except KeysmithErr α
deriving DecidableEq, Repr

/-- `keysmith.Engine`: hasher, optional rate limiter, registered plug-ins.
The hasher is deterministic and total (the reference SHA-256 hasher never
returns an error); the rate limiter is its `Allow` predicate
`(bucketKey, limit, window) → allowed`. -/
structure Engine where
  hashFn : String → String
  ratelimitAllow : Option (String → Int → Duration → Bool)
  plugins : List Plugin

/-- `CreateKeyInput` from `types.go` (Go field `Prefix` is `pfx`). -/
structure CreateKeyInput where
  name : String
  description : String
  pfx : String
  environment : String
  policyID : Option String
  scopes : List String
  createdBy : String
  tenantID : String
  expiresAt : Option Time
deriving DecidableEq, Repr

/-- `key.CreateResult`. -/
structure CreateResult where
  key : Key
  rawKey : String
deriving DecidableEq, Repr

/-- `keysmith.ValidationResult`. -/
structure ValidationResult where
  key : Key
  scopes : List String
  policy : Option Policy
deriving DecidableEq, Repr

/-- The expiration test of `ValidateKey` step 3:
`k.ExpiresAt != nil && time.Now().After(*k.ExpiresAt)` — strictly after. -/
def keyExpiredNow (k : Key) (now : Time) : Bool :=
  match k.expiresAt with
  | some t => decide (t < now)
  | none => false

/-- Tail of `Engine.CreateKey` after the key entity is finalised: persist,
assign scopes, fire `KeyCreated`. In the memory store `Keys().Create` never
fails, so the `KeyCreateFailed` branch of the Go code is unreachable;
`Scopes().AssignToKey` never fails either. -/
def createKeyFinish (st : MemStore) (k : Key) (scopesIn : List String)
    (rawKey : String) : Out CreateResult :=
  match keysCreate st k with
  | (st1, .error err) =>
      { store := st1, events := [.keyCreateFailed k.id],
        res := .error (.wrapped "store key" err) }
  | (st1, .ok _) =>
      if scopesIn.isEmpty then
        { store := st1, events := [.keyCreated k.id],
          res := .ok { key := k, rawKey := rawKey } }
      else
        match scopesAssignToKey st1 k.id scopesIn with
        | (st2, .error err) =>
            { store := st2, events := [],
              res := .error (.wrapped "assign scopes" err) }
        | (st2, .ok _) =>
            let k' := { k with scopes := scopesIn }
            { store := st2, events := [.keyCreated k.id],
              res := .ok { key := k', rawKey := rawKey } }

/-- `Engine.CreateKey`. `ctxApp`/`ctxTenant` are the tenant scope read from
the context; `rawKey` is the generator's output and `newId` the fresh
`akey` id. -/
def createKey (e : Engine) (st : MemStore) (input : CreateKeyInput)
    (ctxApp ctxTenant : String) (rawKey newId : String) (now : Time) :
    Out CreateResult :=
  let tenantID := if ctxTenant = "" then input.tenantID else ctxTenant
  let hash := e.hashFn rawKey
  let k : Key :=
    { id := newId, tenantID := tenantID, appID := ctxApp,
      name := input.name, description := input.description,
      pfx := input.pfx, hint := rawKey.drop (rawKey.length - 4),
      keyHash := hash, environment := input.environment,
      state := .active, policyID := input.policyID, scopes := [],
      createdBy := input.createdBy, expiresAt := input.expiresAt,
      lastUsedAt := none, rotatedAt := none, revokedAt := none,
      createdAt := now, updatedAt := now }
  match input.policyID with
  | some pid =>
      match policiesGet st pid with
      | .error err =>
          { store := st, events := [], res := .error (.wrapped "get policy" err) }
      | .ok pol =>
          let k1 :=
            if 0 < pol.maxKeyLifetime ∧ input.expiresAt = none then
              { k with expiresAt := some (now + pol.maxKeyLifetime) }
            else k
          createKeyFinish st k1 input.scopes rawKey
  | none => createKeyFinish st k input.scopes rawKey

/-- Step 5's policy load in `Engine.ValidateKey`: the lookup error is
discarded (`pol, _ = e.store.Policies().Get(...)`), leaving `pol` nil. -/
def loadPolicyForKey (st : MemStore) (k : Key) : Option Policy :=
  match k.policyID with
  | some pid =>
      match policiesGet st pid with
      | .ok p => some p
      | .error _ => none
  | none => none

/-- Steps 5–8 of `Engine.ValidateKey` (policy load, rate limit, scopes,
`KeyValidated`). The rate-limit branch runs only with a policy, a
configured limiter and `RateLimit > 0` (an `Allow` error counts as a deny
in Go; the deterministic model folds it into the predicate). The
`last_used_at` update is detached and not part of the synchronous
transition. -/
def validateKeyTail (e : Engine) (st : MemStore) (k : Key) : Out ValidationResult :=
  let pol : Option Policy := loadPolicyForKey st k
  let denied : Bool :=
    match pol, e.ratelimitAllow with
    | some p, some allow =>
        if 0 < p.rateLimit then !(allow k.id p.rateLimit p.rateLimitWindow)
        else false
    | _, _ => false
  if denied then
    { store := st, events := [.keyRateLimited k.id], res := .error .rateLimited }
  else
    let scopeNames := (scopesListByKey st k.id).map (·.name)
    { store := st, events := [.keyValidated k.id],
      res := .ok { key := k, scopes := scopeNames, policy := pol } }

/-- `Engine.ValidateKey` (the hot path), steps 1–8 of §4.1. On the grace
branch the rotation-lookup error is silently ignored (`rotErr == nil &&`
guard), and the grace check compares `time.Now().After(latest.GraceEnds)`. -/
def validateKey (e : Engine) (st : MemStore) (rawKey : String) (now : Time) :
    Out ValidationResult :=
  match keysGetByHash st (e.hashFn rawKey) with
  | .error _ =>
      { store := st, events := [.keyValidationFailed rawKey],
        res := .error .invalidKey }
  | .ok k =>
      if k.state = .active ∨ k.state = .rotated then
        if keyExpiredNow k now then
          let st1 := (keysUpdateState st k.id .expired now).1
          { store := st1, events := [.keyExpired k.id], res := .error .keyExpired }
        else if k.state = .rotated then
          match rotationsLatestForKey st k.id with
          | .ok rcd =>
              if rcd.graceEnds < now then
                let st1 := (keysUpdateState st k.id .revoked now).1
                { store := st1, events := [], res := .error .keyRevoked }
              else validateKeyTail e st k
          | .error _ => validateKeyTail e st k
        else validateKeyTail e st k
      else
        { store := st, events := [.keyValidationFailed rawKey],
          res := .error .keyInactive }

/-- The implementation's default grace TTL (24 h, in seconds). -/
def defaultGraceTTL : Duration := 24 * 60 * 60

/-- `Engine.RotateKey`: new hash and hint on the same row, then one rotation
record with both hashes and `grace_ends = now + grace_ttl`. `rawKey` is the
generator's output and `newRotId` the fresh `krot` id. -/
def rotateKey (e : Engine) (st : MemStore) (kid : String) (reason : String)
    (rawKey newRotId : String) (now : Time) : Out CreateResult :=
  match keysGet st kid with
  | .error err =>
      { store := st, events := [], res := .error (.wrapped "get key" err) }
  | .ok k =>
      let graceTTL : Duration :=
        match k.policyID with
        | some pid =>
            match policiesGet st pid with
            | .ok pol => if 0 < pol.gracePeriod then pol.gracePeriod else defaultGraceTTL
            | .error _ => defaultGraceTTL
        | none => defaultGraceTTL
      let newHash := e.hashFn rawKey
      let oldHash := k.keyHash
      let k' :=
        { k with
          keyHash := newHash
          hint := rawKey.drop (rawKey.length - 4)
          rotatedAt := some now
          updatedAt := now }
      match keysUpdate st k' with
      | (st1, .error err) =>
          { store := st1, events := [], res := .error (.wrapped "update key" err) }
      | (st1, .ok _) =>
          let rcd : RotationRecord :=
            { id := newRotId, keyID := k.id, tenantID := k.tenantID,
              oldKeyHash := oldHash, newKeyHash := newHash, reason := reason,
              graceTTL := graceTTL, graceEnds := now + graceTTL,
              rotatedBy := "", createdAt := now }
          match rotationsCreate st1 rcd with
          | (st2, .error err) =>
              { store := st2, events := [],
                res := .error (.wrapped "record rotation" err) }
          | (st2, .ok _) =>
              { store := st2, events := [.keyRotated k.id],
                res := .ok { key := k', rawKey := rawKey } }

/-- `Engine.RevokeKey`: loads the key and unconditionally writes
`state = revoked` back — no check of the current state. -/
def revokeKey (e : Engine) (st : MemStore) (kid : String) (reason : String)
    (now : Time) : Out Unit :=
  match keysGet st kid with
  | .error err =>
      { store := st, events := [], res := .error (.wrapped "get key" err) }
  | .ok k =>
      let k' := { k with state := .revoked, revokedAt := some now, updatedAt := now }
      match keysUpdate st k' with
      | (st1, .error err) =>
          { store := st1, events := [], res := .error (.wrapped "update key" err) }
      | (st1, .ok _) =>
          { store := st1, events := [.keyRevoked k.id], res := .ok () }

/-- `Engine.SuspendKey`: unconditional `UpdateState(suspended)` — no check
of the current state — then a best-effort `Get` to fire the hook. -/
def suspendKey (e : Engine) (st : MemStore) (kid : String) (now : Time) :
    Out Unit :=
  match keysUpdateState st kid .suspended now with
  | (st1, .error err) =>
      { store := st1, events := [], res := .error (.wrapped "suspend key" err) }
  | (st1, .ok _) =>
      match keysGet st1 kid with
      | .ok _ => { store := st1, events := [.keySuspended kid], res := .ok () }
      | .error _ => { store := st1, events := [], res := .ok () }

/-- `Engine.ReactivateKey`: the only lifecycle mutation that guards its
source state (`suspended`), else `ErrInvalidStateTransition`. -/
def reactivateKey (e : Engine) (st : MemStore) (kid : String) (now : Time) :
    Out Unit :=
  match keysGet st kid with
  | .error err =>
      { store := st, events := [], res := .error (.wrapped "get key" err) }
  | .ok k =>
      if k.state ≠ .suspended then
        { store := st, events := [], res := .error .invalidStateTransition }
      else
        match keysUpdateState st kid .active now with
        | (st1, .error err) =>
            { store := st1, events := [],
              res := .error (.wrapped "reactivate key" err) }
        | (st1, .ok _) =>
            { store := st1, events := [.keyReactivated kid], res := .ok () }

/-- `Engine.DeletePolicy`: `ErrPolicyInUse` whenever `ListByPolicy` returns
any key at all — the referencing keys' states are never consulted. (The
memory store's `ListByPolicy` cannot fail.) -/
def deletePolicy (e : Engine) (st : MemStore) (pid : String) : Out Unit :=
  let referencing := keysListByPolicy st pid
  if referencing.isEmpty then
    match policiesDelete st pid with
    | (st1, .error err) =>
        { store := st1, events := [], res := .error (.wrapped "delete policy" err) }
    | (st1, .ok _) =>
        { store := st1, events := [.policyDeleted pid], res := .ok () }
  else
    { store := st, events := [], res := .error .policyInUse }

/-- `Engine.CleanupGraceExpired`: asks the store for `ListPendingGrace(now)`
(records whose grace window has NOT ended yet) and then revokes only those
of them with `time.Now().After(rec.GraceEnds)`. `nowList` is the first
`time.Now()` (line 589) and `nowCheck` the one evaluated inside the loop
(line 594); `UpdateState` failures are logged and ignored. -/
def cleanupGraceExpired (e : Engine) (st : MemStore) (nowList nowCheck : Time) :
    Out Unit :=
  let recs := rotationsListPendingGrace st nowList
  let st' := recs.foldl
    (fun acc r =>
      if r.graceEnds < nowCheck then (keysUpdateState acc r.keyID .revoked nowCheck).1
      else acc) st
  { store := st', events := [], res := .ok () }

/-! ## Shared lemmas and concrete fixtures -/

theorem alookup_eq_none_of_not_mem_keys {α : Type} (m : AList α) (k : String)
    (h : k ∉ m.map (·.1)) : alookup m k = none := by
  induction m with
  | nil => rfl
  | cons hd tl ih =>
      simp only [List.map_cons, List.mem_cons] at h
      push_neg at h
      simp [alookup, Ne.symm h.1, ih h.2]

theorem alookup_aerase_self_of_nodup {α : Type} (m : AList α) (k : String)
    (h : (m.map (·.1)).Nodup) : alookup (aerase m k) k = none := by
  induction m with
  | nil => rfl
  | cons hd tl ih =>
      simp only [List.map_cons, List.nodup_cons] at h
      by_cases hk : hd.1 = k
      · rw [aerase, if_pos hk]
        exact alookup_eq_none_of_not_mem_keys tl k (hk ▸ h.1)
      · rw [aerase, if_neg hk]
        simp [alookup, hk, ih h.2]

/-- A deterministic stand-in hasher for concrete scenarios (the `Hasher`
contract only requires determinism and a fixed codomain format). -/
def idEngine : Engine :=
  { hashFn := fun s => s, ratelimitAllow := none, plugins := [] }

/-- A concrete key row for scenarios. -/
def mkKey (kid hash : String) (s : KState) (pid : Option String)
    (exp : Option Time) : Key :=
  { id := kid, tenantID := "t1", appID := "a1", name := "K", description := "",
    pfx := "sk", hint := hash.drop (hash.length - 4), keyHash := hash,
    environment := "test", state := s, policyID := pid, scopes := [],
    createdBy := "", expiresAt := exp, lastUsedAt := none, rotatedAt := none,
    revokedAt := none, createdAt := 0, updatedAt := 0 }

/-- A concrete policy row for scenarios. -/
def mkPolicy (pid : String) : Policy :=
  { id := pid, tenantID := "t1", appID := "a1", name := "Std", description := "",
    rateLimit := 0, rateLimitWindow := 0, burstLimit := 0, allowedScopes := [],
    allowedIPs := [], allowedOrigins := [], allowedMethods := [],
    allowedPaths := [], maxKeyLifetime := 0, rotationPeriod := 0,
    gracePeriod := 0, dailyQuota := 0, monthlyQuota := 0, createdAt := 0,
    updatedAt := 0 }

theorem validateKeyTail_no_limiter (e : Engine) (st : MemStore) (k : Key)
    (h : e.ratelimitAllow = none) :
    validateKeyTail e st k =
      { store := st, events := [.keyValidated k.id],
        res := .ok { key := k,
                     scopes := (scopesListByKey st k.id).map (·.name),
                     policy := loadPolicyForKey st k } } := by
  unfold validateKeyTail
  rw [h]
  rcases hp : loadPolicyForKey st k with _ | p <;> simp [hp]

/-! ## Claim theorems -/

theorem mem_pendingGrace (st : MemStore) (now : Time) (r : RotationRecord)
    (h : r ∈ rotationsListPendingGrace st now) : now < r.graceEnds := by
  unfold rotationsListPendingGrace at h
  simp only [List.mem_map, List.mem_filter, decide_eq_true_eq] at h
  obtain ⟨x, ⟨_, hlt⟩, hx⟩ := h
  exact hx ▸ hlt

theorem foldl_revoke_skip (now : Time) (l : List RotationRecord) (st : MemStore)
    (h : ∀ r ∈ l, ¬ r.graceEnds < now) :
    l.foldl
      (fun acc r =>
        if r.graceEnds < now then (keysUpdateState acc r.keyID .revoked now).1
        else acc) st = st := by
  induction l generalizing st with
  | nil => rfl
  | cons hd tl ih =>
      simp only [List.foldl_cons]
      rw [if_neg (h hd (by simp))]
      exact ih st (fun r hr => h r (List.mem_cons_of_mem _ hr))

/-- Claim C1: the grace-collect sweep. The claim says that every rotation
record whose `grace_ends` has passed when `CleanupGraceExpired` runs gets
its key revoked. In the code, `ListPendingGrace(now)` returns only records
with `grace_ends > now`, and the sweep then revokes only records with
`now > grace_ends` — so (with the clock read once) the sweep revokes
nothing at all and returns the store unchanged: a key in state `rotated`
whose grace window has ended stays `rotated`. -/
theorem C1_cleanup_grace_expired_revokes_nothing (e : Engine) (st : MemStore)
    (now : Time) :
    cleanupGraceExpired e st now now =
      { store := st, events := [], res := .ok () } := by
  unfold cleanupGraceExpired
  refine congrArg (fun s => Out.mk s [] (.ok ())) ?_
  exact foldl_revoke_skip now _ st
    (fun r hr => not_lt_of_gt (mem_pendingGrace st now r hr))

/-- Store of the C2 scenario: policy `p1`, one active key `k1` referencing it
(the shape `TestDeletePolicy_InUse` builds). -/
def c2Store : MemStore :=
  { keys := [("k1", mkKey "k1" "h1" .active (some "p1") none)],
    hashIndex := [("h1", "k1")], policies := [("p1", mkPolicy "p1")],
    rotations := [], scopes := [], keyScopes := [] }

/-- Claim C2, counterexample: after revoking the only key that references
policy `p1` (so every referencing key is terminal), `DeletePolicy` still
fails with `PolicyInUse` — it counts key rows regardless of state, so
"after revoking all of them, DeletePolicy(P) returns success" is false. -/
theorem C2_counterexample :
    ((revokeKey idEngine c2Store "k1" "test revocation" 5).res = .ok ()) ∧
    ((alookup (revokeKey idEngine c2Store "k1" "test revocation" 5).store.keys
        "k1").map (·.state) = some KState.revoked) ∧
    ((deletePolicy idEngine
        (revokeKey idEngine c2Store "k1" "test revocation" 5).store "p1").res
      = .error .policyInUse) := by decide

/-- Claim C2 (amended): `DeletePolicy` fails with `PolicyInUse` while at
least one key row — of ANY state, terminal states included — references the
policy, and succeeds (removing the policy) exactly when no key row
references it at all; revoking the referencing keys therefore does not
unblock deletion. -/
theorem C2_deletePolicy_blocked_by_any_reference (e : Engine) (st : MemStore)
    (pid : String) (hpol : alookup st.policies pid ≠ none)
    (hnd : (st.policies.map (·.1)).Nodup) :
    ((∃ kv ∈ st.keys, kv.2.policyID = some pid) →
        (deletePolicy e st pid).res = .error .policyInUse ∧
        (deletePolicy e st pid).store = st) ∧
    ((∀ kv ∈ st.keys, kv.2.policyID ≠ some pid) →
        (deletePolicy e st pid).res = .ok () ∧
        alookup (deletePolicy e st pid).store.policies pid = none) := by
  constructor
  · rintro ⟨kv, hmem, hpid⟩
    have hfil : kv ∈ st.keys.filter (fun kv => kv.2.policyID = some pid) :=
      List.mem_filter.mpr ⟨hmem, by simp [hpid]⟩
    have hmm : kv.2 ∈ keysListByPolicy st pid := by
      unfold keysListByPolicy
      exact List.mem_map_of_mem _ hfil
    have hne : (keysListByPolicy st pid).isEmpty = false := by
      cases hLBP : keysListByPolicy st pid with
      | nil => rw [hLBP] at hmm; cases hmm
      | cons a l => rfl
    simp [deletePolicy, hne]
  · intro hall
    have hnil : keysListByPolicy st pid = [] := by
      unfold keysListByPolicy
      rw [List.filter_eq_nil_iff.mpr (fun a ha => by simpa using hall a ha)]
      rfl
    obtain ⟨p, hp⟩ : ∃ p, alookup st.policies pid = some p := by
      cases h : alookup st.policies pid with
      | none => exact absurd h hpol
      | some p => exact ⟨p, rfl⟩
    simp [deletePolicy, policiesDelete, hnil, hp]
    simpa using alookup_aerase_self_of_nodup st.policies pid hnd

/-- Claim C2 witness: the amended theorem applied to the concrete scenario
with the referencing key still present. -/
theorem C2_witness :
    (alookup c2Store.policies "p1" ≠ none) ∧
    ((c2Store.policies.map (·.1)).Nodup) ∧
    (((∃ kv ∈ c2Store.keys, kv.2.policyID = some "p1") →
        (deletePolicy idEngine c2Store "p1").res = .error .policyInUse ∧
        (deletePolicy idEngine c2Store "p1").store = c2Store) ∧
      ((∀ kv ∈ c2Store.keys, kv.2.policyID ≠ some "p1") →
        (deletePolicy idEngine c2Store "p1").res = .ok () ∧
        alookup (deletePolicy idEngine c2Store "p1").store.policies "p1" = none)) :=
  ⟨by decide, by decide,
    C2_deletePolicy_blocked_by_any_reference idEngine c2Store "p1"
      (by decide) (by decide)⟩

/-- First key of the C3 scenario. -/
def c3Key1 : Key := mkKey "k1" "h1" .active none none

/-- Second key of the C3 scenario: a different row with the same hash. -/
def c3Key2 : Key := mkKey "k2" "h1" .active none none

/-- Store already containing `k1` with hash `h1`. -/
def c3Store : MemStore := (keysCreate emptyStore c3Key1).1

/-- Claim C3: `key_hash` uniqueness on insert. The claim (and spec I1) says
a second `Create` with an existing hash must fail and leave the existing
row unchanged by the insert. The memory store's `Create` instead succeeds
unconditionally and silently re-points the hash index at the new row: the
old row `k1` is still stored but `GetByHash("h1")` now yields `k2`. (The
SQL backends declare `key_hash TEXT NOT NULL UNIQUE`; the in-memory
backend omits the check.) -/
theorem C3_duplicate_hash_insert_succeeds :
    ((keysCreate c3Store c3Key2).2 = .ok ()) ∧
    (alookup (keysCreate c3Store c3Key2).1.hashIndex "h1" = some "k2") ∧
    (alookup (keysCreate c3Store c3Key2).1.keys "k1" = some c3Key1) ∧
    (keysGetByHash (keysCreate c3Store c3Key2).1 "h1" = .ok c3Key2) := by
  decide

/-- Store of the C4 scenario: one key in the terminal state `expired`. -/
def c4Store : MemStore :=
  { keys := [("k1", mkKey "k1" "h1" .expired none none)],
    hashIndex := [("h1", "k1")], policies := [], rotations := [],
    scopes := [], keyScopes := [] }

/-- Claim C4, counterexample: `SuspendKey` on an `expired` key succeeds and
moves the key to `suspended` — a transition out of a terminal state, and a
suspension not starting from `active`. -/
theorem C4_counterexample :
    ((suspendKey idEngine c4Store "k1" 5).res = .ok ()) ∧
    ((alookup (suspendKey idEngine c4Store "k1" 5).store.keys "k1").map
        (·.state) = some KState.suspended) := by decide

/-- Claim C4 (amended): only `ReactivateKey` guards its source state (it
fails with `InvalidStateTransition` on a terminal key, leaving the store
untouched), and `RotateKey` does not change the state field; but `RevokeKey`
and `SuspendKey` transition a key unconditionally from any state — including
out of `expired` and `revoked` — so terminal states are not absorbing and
`SuspendKey` is not restricted to `active` sources. -/
theorem C4_only_reactivate_guards_terminal_states (e : Engine) (st : MemStore)
    (kid reason rawKey rotId : String) (k : Key) (now : Time)
    (hk : alookup st.keys kid = some k) (hid : k.id = kid)
    (hterm : k.state = .expired ∨ k.state = .revoked) :
    ((reactivateKey e st kid now).res = .error .invalidStateTransition ∧
      (reactivateKey e st kid now).store = st) ∧
    ((alookup (rotateKey e st kid reason rawKey rotId now).store.keys kid).map
        (·.state) = some k.state) ∧
    ((suspendKey e st kid now).res = .ok () ∧
      (alookup (suspendKey e st kid now).store.keys kid).map (·.state)
        = some KState.suspended) ∧
    ((revokeKey e st kid reason now).res = .ok () ∧
      (alookup (revokeKey e st kid reason now).store.keys kid).map (·.state)
        = some KState.revoked) := by
  have hns : k.state ≠ .suspended := by rcases hterm with h | h <;> simp [h]
  refine ⟨?_, ?_, ?_, ?_⟩
  · simp [reactivateKey, keysGet, hk, hns]
  · simp [rotateKey, keysGet, keysUpdate, rotationsCreate, hk, hid,
      alookup_ainsert_self]
  · simp [suspendKey, keysUpdateState, keysGet, hk, alookup_ainsert_self]
  · simp [revokeKey, keysGet, keysUpdate, hk, hid, alookup_ainsert_self]

/-- Claim C4 witness: the amended theorem at the concrete expired key. -/
theorem C4_witness :
    (alookup c4Store.keys "k1" = some (mkKey "k1" "h1" .expired none none)) ∧
    ((mkKey "k1" "h1" .expired none none).id = "k1") ∧
    ((mkKey "k1" "h1" .expired none none).state = .expired ∨
      (mkKey "k1" "h1" .expired none none).state = .revoked) ∧
    (((reactivateKey idEngine c4Store "k1" 5).res
        = .error .invalidStateTransition ∧
      (reactivateKey idEngine c4Store "k1" 5).store = c4Store) ∧
    ((alookup (rotateKey idEngine c4Store "k1" "manual" "sk_test_new" "r1" 5).store.keys
        "k1").map (·.state) = some (mkKey "k1" "h1" .expired none none).state) ∧
    ((suspendKey idEngine c4Store "k1" 5).res = .ok () ∧
      (alookup (suspendKey idEngine c4Store "k1" 5).store.keys "k1").map
        (·.state) = some KState.suspended) ∧
    ((revokeKey idEngine c4Store "k1" "manual" 5).res = .ok () ∧
      (alookup (revokeKey idEngine c4Store "k1" "manual" 5).store.keys
        "k1").map (·.state) = some KState.revoked)) :=
  ⟨by decide, by decide, by decide,
    C4_only_reactivate_guards_terminal_states idEngine c4Store "k1" "manual"
      "sk_test_new" "r1" (mkKey "k1" "h1" .expired none none) 5
      (by decide) (by decide) (by decide)⟩

/-- Input of the C5 scenario: a key creation requesting scope name
`read:users`. -/
def c5Input : CreateKeyInput :=
  { name := "K", description := "", pfx := "sk", environment := "test",
    policyID := none, scopes := ["read:users"], createdBy := "",
    tenantID := "", expiresAt := none }

/-- Store of the C5 scenario: the only scope named `read:users` lives in
tenant `tA`; the key will be created under tenant `tB`. -/
def c5Store : MemStore :=
  { emptyStore with
      scopes := [("s1",
        { id := "s1", tenantID := "tA", appID := "a1", name := "read:users",
          description := "", parent := "", createdAt := 0 })] }

/-- Claim C5: the claim says `CreateKey` must fail when a requested scope
name does not exist in the key's tenant. In the code the memory store's
`AssignToKey` never resolves names at all (no tenant check, no existence
check), so `CreateKey` under tenant `tB` with a name that exists only in
tenant `tA` succeeds, stores the key, and records the dangling name in the
junction. (The postgres/sqlite/mongo backends resolve via the key's
tenant and fail with not-found; the in-memory backend skips resolution.) -/
theorem C5_missing_scope_name_does_not_fail_create :
    (((createKey idEngine c5Store c5Input "a1" "tB" "sk_test_raw01" "k1" 0).res.toOption).isSome
      = true) ∧
    (alookup (createKey idEngine c5Store c5Input "a1" "tB" "sk_test_raw01" "k1" 0).store.keyScopes
        "k1" = some ["read:users"]) ∧
    ((alookup (createKey idEngine c5Store c5Input "a1" "tB" "sk_test_raw01" "k1" 0).store.keys
        "k1").isSome = true) := by decide

/-- Key of the C6 counterexample: rotated AND past its `expires_at`. -/
def c6Key : Key := mkKey "k1" "h1" .rotated none (some 0)

/-- Rotation record of the C6 counterexample: grace ended at time 1. -/
def c6Rec : RotationRecord :=
  { id := "r1", keyID := "k1", tenantID := "t1", oldKeyHash := "h0",
    newKeyHash := "h1", reason := "manual", graceTTL := 1, graceEnds := 1,
    rotatedBy := "", createdAt := 0 }

/-- Store of the C6 counterexample. -/
def c6Store : MemStore :=
  { keys := [("k1", c6Key)], hashIndex := [("h1", "k1")], policies := [],
    rotations := [("r1", c6Rec)], scopes := [], keyScopes := [] }

/-- Claim C6, counterexample: a key that is rotated with its grace window
ended (`grace_ends = 1 < now = 10`) but that has ALSO passed its
`expires_at` fails with `KeyExpired`, not `KeyRevoked` — the expiry check
(step 3) runs before the grace check (step 4), so the claim's unrestricted
"fails with KeyRevoked" is false for such keys. -/
theorem C6_counterexample :
    (validateKey idEngine c6Store "h1" 10).res = .error .keyExpired ∧
    (validateKey idEngine c6Store "h1" 10).res ≠ .error .keyRevoked := by
  decide

/-- Claim C6 (amended): for every key in state `rotated` that has NOT passed
its `expires_at` (unset or not strictly in the past) and whose latest
rotation record has `grace_ends` earlier than now, `ValidateKey` with its
current raw key transitions the stored key to `revoked` and fails with
`KeyRevoked` — never with `KeyInactive`: the state check (step 2) admits
both `active` and `rotated` before the grace check runs. -/
theorem C6_rotated_grace_ended_fails_revoked (e : Engine) (st : MemStore)
    (raw : String) (k : Key) (rcd : RotationRecord) (now : Time)
    (hget : keysGetByHash st (e.hashFn raw) = .ok k)
    (hrow : alookup st.keys k.id = some k)
    (hst : k.state = .rotated)
    (hexp : keyExpiredNow k now = false)
    (hlat : rotationsLatestForKey st k.id = .ok rcd)
    (hgr : rcd.graceEnds < now) :
    (validateKey e st raw now).res = .error .keyRevoked ∧
    (alookup (validateKey e st raw now).store.keys k.id).map (·.state)
      = some KState.revoked := by
  simp [validateKey, hget, hst, hexp, hlat, hgr, keysUpdateState, hrow,
    alookup_ainsert_self]

/-- Key of the C6 witness: rotated, with no `expires_at`. -/
def c6wKey : Key := mkKey "k1" "h1" .rotated none none

/-- Store of the C6 witness. -/
def c6wStore : MemStore :=
  { keys := [("k1", c6wKey)], hashIndex := [("h1", "k1")], policies := [],
    rotations := [("r1", c6Rec)], scopes := [], keyScopes := [] }

/-- Claim C6 witness: the amended theorem at a concrete rotated,
non-expired key whose grace window has ended. -/
theorem C6_witness :
    (keysGetByHash c6wStore (idEngine.hashFn "h1") = .ok c6wKey) ∧
    (alookup c6wStore.keys c6wKey.id = some c6wKey) ∧
    (c6wKey.state = .rotated) ∧
    (keyExpiredNow c6wKey 10 = false) ∧
    (rotationsLatestForKey c6wStore c6wKey.id = .ok c6Rec) ∧
    (c6Rec.graceEnds < 10) ∧
    ((validateKey idEngine c6wStore "h1" 10).res = .error .keyRevoked ∧
      (alookup (validateKey idEngine c6wStore "h1" 10).store.keys
          c6wKey.id).map (·.state) = some KState.revoked) :=
  ⟨by decide, by decide, by decide, by decide, by decide, by decide,
    C6_rotated_grace_ended_fails_revoked idEngine c6wStore "h1" c6wKey c6Rec
      10 (by decide) (by decide) (by decide) (by decide) (by decide)
      (by decide)⟩

/-- Store of the C7 counterexample: an active key whose `expires_at` equals
the validation instant exactly. -/
def c7Store : MemStore :=
  { keys := [("k1", mkKey "k1" "h1" .active none (some 10))],
    hashIndex := [("h1", "k1")], policies := [], rotations := [],
    scopes := [], keyScopes := [] }

/-- Store of the second C7 counterexample: a suspended key well past its
`expires_at`. -/
def c7bStore : MemStore :=
  { keys := [("k2", mkKey "k2" "h2" .suspended none (some 0))],
    hashIndex := [("h2", "k2")], policies := [], rotations := [],
    scopes := [], keyScopes := [] }

/-- Claim C7, counterexample: the claim includes equality
(`expires_at ≤ now`), but the code tests `time.Now().After(*k.ExpiresAt)`,
which is strict — at `expires_at = now = 10` validation SUCCEEDS, no
`KeyExpired` hook fires, and the stored state stays `active`. Moreover the
state check precedes the expiry check, so a suspended key past its
`expires_at` fails with `KeyInactive`, not `KeyExpired`, and is not
transitioned. -/
theorem C7_counterexample :
    ((((validateKey idEngine c7Store "h1" 10).res.toOption).isSome = true) ∧
      ((validateKey idEngine c7Store "h1" 10).events
        = [.keyValidated "k1"]) ∧
      ((alookup (validateKey idEngine c7Store "h1" 10).store.keys "k1").map
          (·.state) = some KState.active)) ∧
    (((validateKey idEngine c7bStore "h2" 10).res = .error .keyInactive) ∧
      ((alookup (validateKey idEngine c7bStore "h2" 10).store.keys "k2").map
          (·.state) = some KState.suspended)) := by decide

/-- Claim C7 (amended): for every key in a state admitted by the validation
state check (`active` or `rotated`) whose `expires_at` is set and STRICTLY
earlier than now, `ValidateKey` on its raw key persistently transitions the
stored state to `expired`, fires the `KeyExpired` hook, and fails with
`KeyExpired`; at `expires_at` exactly equal to now the key does not expire. -/
theorem C7_strictly_past_expiry_fails_expired (e : Engine) (st : MemStore)
    (raw : String) (k : Key) (t : Time) (now : Time)
    (hget : keysGetByHash st (e.hashFn raw) = .ok k)
    (hrow : alookup st.keys k.id = some k)
    (hst : k.state = .active ∨ k.state = .rotated)
    (hexp : k.expiresAt = some t) (hlt : t < now) :
    (validateKey e st raw now).res = .error .keyExpired ∧
    (validateKey e st raw now).events = [.keyExpired k.id] ∧
    (alookup (validateKey e st raw now).store.keys k.id).map (·.state)
      = some KState.expired := by
  have hex : keyExpiredNow k now = true := by
    simp [keyExpiredNow, hexp, hlt]
  simp [validateKey, hget, hst, hex, keysUpdateState, hrow,
    alookup_ainsert_self]

/-- Claim C7 witness: the amended theorem at a concrete active key one tick
past its expiry. -/
theorem C7_witness :
    (keysGetByHash c7Store (idEngine.hashFn "h1")
      = .ok (mkKey "k1" "h1" .active none (some 10))) ∧
    (alookup c7Store.keys (mkKey "k1" "h1" .active none (some 10)).id
      = some (mkKey "k1" "h1" .active none (some 10))) ∧
    ((mkKey "k1" "h1" .active none (some 10)).state = .active ∨
      (mkKey "k1" "h1" .active none (some 10)).state = .rotated) ∧
    ((mkKey "k1" "h1" .active none (some 10)).expiresAt = some 10) ∧
    ((10 : Time) < 11) ∧
    ((validateKey idEngine c7Store "h1" 11).res = .error .keyExpired ∧
      (validateKey idEngine c7Store "h1" 11).events
        = [.keyExpired (mkKey "k1" "h1" .active none (some 10)).id] ∧
      (alookup (validateKey idEngine c7Store "h1" 11).store.keys
          (mkKey "k1" "h1" .active none (some 10)).id).map (·.state)
        = some KState.expired) :=
  ⟨by decide, by decide, by decide, by decide, by decide,
    C7_strictly_past_expiry_fails_expired idEngine c7Store "h1"
      (mkKey "k1" "h1" .active none (some 10)) 10 11
      (by decide) (by decide) (by decide) (by decide) (by decide)⟩

/-- Claim C8: after a successful `RotateKey` on an active key (with a fresh
rotation id, a new raw key hashing differently from the old one, a
duplicate-free hash index, and no rate limiter) —
(i) the rotation succeeds and returns the new raw key,
(ii) validating the new raw key succeeds and yields the same key id,
(iii) validating the pre-rotation raw key fails with `InvalidKey`,
(iv) the stored rotation record's `new_key_hash` equals the key row's
current `key_hash`, and
(v) exactly one rotation record was added. -/
theorem C8_rotate_postconditions (e : Engine) (st : MemStore)
    (kid reason oldRaw newRaw rotId : String) (k : Key) (now : Time)
    (hrl : e.ratelimitAllow = none)
    (hrow : alookup st.keys kid = some k) (hid : k.id = kid)
    (hact : k.state = .active)
    (hold : e.hashFn oldRaw = k.keyHash)
    (hnew : e.hashFn newRaw ≠ k.keyHash)
    (hexp : keyExpiredNow k now = false)
    (hnodup : alookup (aerase st.hashIndex k.keyHash) k.keyHash = none)
    (hfresh : alookup st.rotations rotId = none) :
    (∃ r, (rotateKey e st kid reason newRaw rotId now).res = .ok r ∧
        r.rawKey = newRaw) ∧
    (∃ vr, (validateKey e (rotateKey e st kid reason newRaw rotId now).store
        newRaw now).res = .ok vr ∧ vr.key.id = kid) ∧
    ((validateKey e (rotateKey e st kid reason newRaw rotId now).store
        oldRaw now).res = .error .invalidKey) ∧
    (∃ rcd, alookup (rotateKey e st kid reason newRaw rotId now).store.rotations
          rotId = some rcd ∧
        rcd.newKeyHash = e.hashFn newRaw ∧
        (alookup (rotateKey e st kid reason newRaw rotId now).store.keys
            kid).map (·.keyHash) = some rcd.newKeyHash) ∧
    ((rotateKey e st kid reason newRaw rotId now).store.rotations.length
      = st.rotations.length + 1) := by
  have hne' : ¬ (k.keyHash = e.hashFn newRaw) := fun h => hnew h.symm
  simp only [rotateKey, keysGet, hid, hrow, keysUpdate, rotationsCreate]
  simp only [hid, hrow, hact, if_neg hne']
  refine ⟨⟨_, rfl, rfl⟩, ?_, ?_, ?_, ?_⟩
  · -- validating the new raw key succeeds
    have hx : keyExpiredNow
        { id := kid, tenantID := k.tenantID, appID := k.appID, name := k.name,
          description := k.description, pfx := k.pfx,
          hint := newRaw.drop (newRaw.length - 4), keyHash := e.hashFn newRaw,
          environment := k.environment, state := KState.active,
          policyID := k.policyID, scopes := k.scopes,
          createdBy := k.createdBy, expiresAt := k.expiresAt,
          lastUsedAt := k.lastUsedAt, rotatedAt := some now,
          revokedAt := k.revokedAt, createdAt := k.createdAt,
          updatedAt := now } now = false := hexp
    simp only [validateKey, keysGetByHash, alookup_ainsert_self, hx]
    rw [validateKeyTail_no_limiter e _ _ hrl]
    exact ⟨_, rfl, rfl⟩
  · -- validating the old raw key fails with InvalidKey
    simp only [validateKey, keysGetByHash, hold]
    rw [alookup_ainsert_ne _ _ _ _ hnew, hnodup]
  · -- the stored record's new_key_hash equals the key row's current hash
    refine ⟨_, alookup_ainsert_self _ _ _, rfl, ?_⟩
    simp [alookup_ainsert_self]
  · -- exactly one record added
    exact ainsert_length_of_alookup_none _ _ _ hfresh

/-- Key of the C8 witness: active, hash `sk_old` (identity hasher). -/
def c8Key : Key := mkKey "k1" "sk_old" .active none none

/-- Store of the C8 witness. -/
def c8Store : MemStore :=
  { keys := [("k1", c8Key)], hashIndex := [("sk_old", "k1")], policies := [],
    rotations := [], scopes := [], keyScopes := [] }

/-- Claim C8 witness: the rotation postconditions at a concrete store. -/
theorem C8_witness :
    (idEngine.ratelimitAllow = none) ∧
    (alookup c8Store.keys "k1" = some c8Key) ∧
    (c8Key.id = "k1") ∧
    (c8Key.state = .active) ∧
    (idEngine.hashFn "sk_old" = c8Key.keyHash) ∧
    (idEngine.hashFn "sk_new" ≠ c8Key.keyHash) ∧
    (keyExpiredNow c8Key 5 = false) ∧
    (alookup (aerase c8Store.hashIndex c8Key.keyHash) c8Key.keyHash = none) ∧
    (alookup c8Store.rotations "r1" = none) ∧
    ((∃ r, (rotateKey idEngine c8Store "k1" "manual" "sk_new" "r1" 5).res
          = .ok r ∧ r.rawKey = "sk_new") ∧
      (∃ vr, (validateKey idEngine
          (rotateKey idEngine c8Store "k1" "manual" "sk_new" "r1" 5).store
          "sk_new" 5).res = .ok vr ∧ vr.key.id = "k1") ∧
      ((validateKey idEngine
          (rotateKey idEngine c8Store "k1" "manual" "sk_new" "r1" 5).store
          "sk_old" 5).res = .error .invalidKey) ∧
      (∃ rcd, alookup (rotateKey idEngine c8Store "k1" "manual" "sk_new"
            "r1" 5).store.rotations "r1" = some rcd ∧
          rcd.newKeyHash = idEngine.hashFn "sk_new" ∧
          (alookup (rotateKey idEngine c8Store "k1" "manual" "sk_new"
              "r1" 5).store.keys "k1").map (·.keyHash) = some rcd.newKeyHash) ∧
      ((rotateKey idEngine c8Store "k1" "manual" "sk_new"
          "r1" 5).store.rotations.length = c8Store.rotations.length + 1)) :=
  ⟨rfl, by decide, by decide, by decide, by decide, by decide, by decide,
    by decide, by decide,
    C8_rotate_postconditions idEngine c8Store "k1" "manual" "sk_old" "sk_new"
      "r1" c8Key 5 rfl (by decide) (by decide) (by decide) (by decide)
      (by decide) (by decide) (by decide) (by decide)⟩

theorem fireKeyCreated_first_error (k : Key) (emsg : String) (p : Plugin)
    (h : Key → Option String) (hp : p.onKeyCreated = some h)
    (he : h k = some emsg) (ps2 : List Plugin) :
    ∀ ps1 : List Plugin,
      (∀ q ∈ ps1, ∀ f, q.onKeyCreated = some f → f k = none) →
      fireKeyCreated (ps1 ++ p :: ps2) k =
        ((ps1.filter (fun q => q.onKeyCreated.isSome)).map (·.name)
          ++ [p.name], some emsg) := by
  intro ps1
  induction ps1 with
  | nil => intro _; simp [fireKeyCreated, hp, he]
  | cons q tl ih =>
      intro hok
      have htl : ∀ r ∈ tl, ∀ f, r.onKeyCreated = some f → f k = none :=
        fun r hr f hf => hok r (List.mem_cons_of_mem _ hr) f hf
      cases hq : q.onKeyCreated with
      | none =>
          simp only [List.cons_append, fireKeyCreated, hq, List.filter_cons,
            List.append_eq]
          rw [ih htl]
          simp [hq]
      | some f =>
          have hf : f k = none := hok q (List.mem_cons_self _ _) f hq
          simp only [List.cons_append, fireKeyCreated, hq, hf,
            List.filter_cons, List.append_eq]
          rw [ih htl]
          simp [hq]

/-- Claim C9: `Manager.FireKeyCreated` invokes implementing handlers in
registration order, skips plug-ins not implementing the kind, stops at the
first handler that returns an error and returns that error (later plug-ins
are never invoked); and `Engine.CreateKey` discards that error
(`_ = e.hooks.FireKeyCreated(...)`), so the key creation still succeeds. -/
theorem C9_first_hook_error_halts_dispatch_create_succeeds
    (ps1 ps2 : List Plugin) (p : Plugin) (h : Key → Option String)
    (emsg : String) (k : Key) (e : Engine) (st : MemStore)
    (input : CreateKeyInput) (ctxApp ctxTenant rawKey newId : String)
    (now : Time)
    (hok : ∀ q ∈ ps1, ∀ f, q.onKeyCreated = some f → f k = none)
    (hp : p.onKeyCreated = some h) (he : h k = some emsg)
    (hpol : input.policyID = none) :
    (fireKeyCreated (ps1 ++ p :: ps2) k =
      ((ps1.filter (fun q => q.onKeyCreated.isSome)).map (·.name)
        ++ [p.name], some emsg)) ∧
    (((createKey (Engine.mk e.hashFn e.ratelimitAllow (ps1 ++ p :: ps2)) st
          input ctxApp ctxTenant rawKey newId now).res.toOption).isSome
      = true) := by
  refine ⟨fireKeyCreated_first_error k emsg p h hp he ps2 ps1 hok, ?_⟩
  simp only [createKey, hpol]
  cases hsc : input.scopes.isEmpty <;>
    simp [createKeyFinish, keysCreate, scopesAssignToKey, hsc, Except.toOption]

/-- First plug-in of the C9 witness: its `KeyCreated` handler fails. -/
def c9p1 : Plugin := { name := "p1", onKeyCreated := some (fun _ => some "boom") }

/-- Second plug-in of the C9 witness: its handler would succeed, but is
never reached. -/
def c9p2 : Plugin := { name := "p2", onKeyCreated := some (fun _ => none) }

/-- Key creation input of the C9 witness. -/
def c9Input : CreateKeyInput :=
  { name := "K", description := "", pfx := "sk", environment := "test",
    policyID := none, scopes := [], createdBy := "", tenantID := "",
    expiresAt := none }

/-- Claim C9 witness: with `p1` erroring registered before `p2`, dispatch
runs exactly `p1` and surfaces its error, and `CreateKey` still succeeds. -/
theorem C9_witness :
    (∀ q ∈ ([] : List Plugin), ∀ f,
        q.onKeyCreated = some f → f (mkKey "k1" "h1" .active none none) = none) ∧
    (c9p1.onKeyCreated = some (fun _ => some "boom")) ∧
    ((fun (_ : Key) => some "boom") (mkKey "k1" "h1" .active none none)
      = some "boom") ∧
    (c9Input.policyID = none) ∧
    ((fireKeyCreated ([] ++ c9p1 :: [c9p2]) (mkKey "k1" "h1" .active none none)
        = ((([] : List Plugin).filter (fun q => q.onKeyCreated.isSome)).map
            (·.name) ++ [c9p1.name], some "boom")) ∧
      (((createKey (Engine.mk idEngine.hashFn idEngine.ratelimitAllow
            ([] ++ c9p1 :: [c9p2])) emptyStore c9Input "a1" "t1"
            "sk_test_raw01" "k1" 0).res.toOption).isSome = true)) :=
  ⟨by simp, rfl, rfl, by decide,
    C9_first_hook_error_halts_dispatch_create_succeeds [] [c9p2] c9p1
      (fun _ => some "boom") "boom" (mkKey "k1" "h1" .active none none)
      idEngine emptyStore c9Input "a1" "t1" "sk_test_raw01" "k1" 0
      (by simp) rfl rfl (by decide)⟩

theorem foldl_latest_none (kid : String) :
    ∀ l : List (String × RotationRecord),
      (∀ kv ∈ l, kv.2.keyID ≠ kid) →
      l.foldl
        (fun acc kv =>
          if kv.2.keyID = kid then
            match acc with
            | none => some kv.2
            | some prev =>
                if prev.createdAt < kv.2.createdAt then some kv.2 else some prev
          else acc) none = none := by
  intro l
  induction l with
  | nil => intro _; rfl
  | cons hd tl ih =>
      intro h
      simp only [List.foldl_cons]
      rw [if_neg (h hd (List.mem_cons_self _ _))]
      exact ih (fun kv hkv => h kv (List.mem_cons_of_mem _ hkv))

theorem latestForKey_notFound_of_no_record (st : MemStore) (kid : String)
    (h : ∀ kv ∈ st.rotations, kv.2.keyID ≠ kid) :
    rotationsLatestForKey st kid = .error (.notFound "rotation") := by
  unfold rotationsLatestForKey
  rw [foldl_latest_none kid st.rotations h]

/-- Claim C10 (implicit behaviour, confirmed): for a key in state `rotated`
for which the rotation store holds no record (`LatestForKey` errors), the
`rotErr == nil &&` guard silently skips the grace check: `ValidateKey`
succeeds, the store is unchanged, and the lookup failure is never surfaced
to the caller. -/
theorem C10_missing_rotation_record_validates_ok (e : Engine) (st : MemStore)
    (raw : String) (k : Key) (now : Time)
    (hget : keysGetByHash st (e.hashFn raw) = .ok k)
    (hst : k.state = .rotated)
    (hexp : keyExpiredNow k now = false)
    (hnorec : ∀ kv ∈ st.rotations, kv.2.keyID ≠ k.id)
    (hrl : e.ratelimitAllow = none) :
    validateKey e st raw now =
      { store := st, events := [.keyValidated k.id],
        res := .ok { key := k,
                     scopes := (scopesListByKey st k.id).map (·.name),
                     policy := loadPolicyForKey st k } } := by
  have hlat := latestForKey_notFound_of_no_record st k.id hnorec
  simp only [validateKey, hget, hst, hexp]
  rw [hlat]
  simp
  exact validateKeyTail_no_limiter e st k hrl

/-- Key of the C10 witness: rotated, with no rotation record anywhere. -/
def c10Key : Key := mkKey "k1" "h1" .rotated none none

/-- Store of the C10 witness. -/
def c10Store : MemStore :=
  { keys := [("k1", c10Key)], hashIndex := [("h1", "k1")], policies := [],
    rotations := [], scopes := [], keyScopes := [] }

/-- Claim C10 witness: the theorem at a concrete rotated key with an empty
rotation store. -/
theorem C10_witness :
    (keysGetByHash c10Store (idEngine.hashFn "h1") = .ok c10Key) ∧
    (c10Key.state = .rotated) ∧
    (keyExpiredNow c10Key 10 = false) ∧
    (∀ kv ∈ c10Store.rotations, kv.2.keyID ≠ c10Key.id) ∧
    (idEngine.ratelimitAllow = none) ∧
    (validateKey idEngine c10Store "h1" 10 =
      { store := c10Store, events := [.keyValidated c10Key.id],
        res := .ok { key := c10Key,
                     scopes := (scopesListByKey c10Store c10Key.id).map (·.name),
                     policy := loadPolicyForKey c10Store c10Key } }) :=
  ⟨by decide, by decide, by decide, by simp [c10Store], rfl,
    C10_missing_rotation_record_validates_ok idEngine c10Store "h1" c10Key 10
      (by decide) (by decide) (by decide) (by simp [c10Store]) rfl⟩

end Keysmith
